import Mathlib

/-!
Verification of the RAG vector-store core of Automation_through_api.

Shallow embedding of src/rag/vector_store.py (class VectorStore), the
relevant behaviour of the FAISS IndexFlatL2 index it delegates to, and of
src/rag/embeddings.py (class EmbeddingGenerator) together with the catalog
src/function_registry/functions.py (function_metadata).

Floats are modelled as rationals; the filesystem directory used by
save/load is modelled as a record of three optional artifacts.
-/

namespace AutomationApi

/-- An embedding vector: a fixed-length ordered sequence of numbers
(floats in the source, modelled as rationals). -/
abbrev Vec := List ℚ

/-- Squared Euclidean (L2) distance between two vectors, the metric of
faiss.IndexFlatL2 used in VectorStore.__init__. -/
def sqDist (q v : Vec) : ℚ :=
  (List.zipWith (fun a b => (a - b) ^ 2) q v).sum

/-- The error outcomes of the embedded operations.  The Python source
raises: ValueError in add_items on a length mismatch (shapeMismatch); the
FAISS add assertion on a wrong vector dimension (dimensionMismatch); the
FAISS search wrapper assertion requiring k > 0 (invalidK);
FileNotFoundError or an unpickling error when a persisted artifact is
missing or unreadable (fileNotFound); AttributeError when a method is
called on None (attributeError). -/
inductive Err
  | shapeMismatch
  | dimensionMismatch
  | invalidK
  | fileNotFound
  | attributeError
deriving DecidableEq

/-- The single-precision FLT_MAX value, the distance FAISS reports in the
padding slots when fewer than k neighbours exist. -/
def fltMax : ℚ := 2 ^ 128 - 2 ^ 104

/-- Model of faiss.IndexFlatL2: the fixed dimension d and the stored
vectors in insertion order (the integer position is the FAISS id). -/
structure FaissIndexFlatL2 where
  d : Nat
  vectors : List Vec
deriving DecidableEq

/-- The comparison FAISS exact search orders results by: ascending squared
L2 distance, ties broken by ascending id (insertion order). -/
def distOrder (p q : ℚ × Nat) : Prop :=
  p.1 < q.1 ∨ (p.1 = q.1 ∧ p.2 ≤ q.2)

instance : DecidableRel distOrder := fun p q =>
  inferInstanceAs (Decidable (p.1 < q.1 ∨ (p.1 = q.1 ∧ p.2 ≤ q.2)))

instance : IsTotal (ℚ × Nat) distOrder where
  total p q := by
    rcases lt_trichotomy p.1 q.1 with h | h | h
    · exact Or.inl (Or.inl h)
    · rcases Nat.le_total p.2 q.2 with h2 | h2
      · exact Or.inl (Or.inr ⟨h, h2⟩)
      · exact Or.inr (Or.inr ⟨h.symm, h2⟩)
    · exact Or.inr (Or.inl h)

instance : IsTrans (ℚ × Nat) distOrder where
  trans p q r hpq hqr := by
    rcases hpq with h1 | ⟨h1, h1i⟩
    · rcases hqr with h2 | ⟨h2, _⟩
      · exact Or.inl (h1.trans h2)
      · exact Or.inl (h2 ▸ h1)
    · rcases hqr with h2 | ⟨h2, h2i⟩
      · exact Or.inl (h1 ▸ h2)
      · exact Or.inr ⟨h1.trans h2, h1i.trans h2i⟩

/-- Model of IndexFlatL2.add: FAISS asserts that every added row has
exactly d components, then appends the rows in order. -/
def FaissIndexFlatL2.addVecs (idx : FaissIndexFlatL2) (embs : List Vec) :
    Except Err FaissIndexFlatL2 :=
  if embs.all (fun v => v.length == idx.d) then
    .ok { idx with vectors := idx.vectors ++ embs }
  else
    .error .dimensionMismatch

/-- Model of IndexFlatL2.search for one query row: exact brute-force
search computes the squared L2 distance from the query to every stored
vector, orders the (distance, id) pairs by distOrder, keeps the first k,
and pads the remaining slots with id -1 and distance FLT_MAX. -/
def FaissIndexFlatL2.searchRow (idx : FaissIndexFlatL2) (q : Vec) (k : Nat) :
    List (Int × ℚ) :=
  let pairs := (List.range idx.vectors.length).map
    (fun i => (sqDist q (idx.vectors.getD i []), i))
  let top := (List.insertionSort distOrder pairs).take k
  let res := top.map (fun p => ((p.2 : Int), p.1))
  res ++ List.replicate (k - res.length) (-1, fltMax)

/-- Model of the FAISS Python search wrapper on a query matrix: it asserts
k > 0 before any computation, then searches each row. -/
def FaissIndexFlatL2.searchMat (idx : FaissIndexFlatL2) (rows : List Vec)
    (k : Int) : Except Err (List (List (Int × ℚ))) :=
  if k ≤ 0 then .error .invalidK
  else .ok (rows.map (fun q => idx.searchRow q k.toNat))

/-- Model of the VectorStore class of src/rag/vector_store.py: the stored
dimension, the FAISS index and the metadata list, generic in the metadata
entry type (Python uses dictionaries). -/
structure VectorStore (α : Type) where
  dimension : Nat
  index : FaissIndexFlatL2
  metadata : List α
deriving DecidableEq

variable {α : Type}

/-- VectorStore.__init__: an IndexFlatL2 of the given dimension and an
empty metadata list. -/
def VectorStore.create (dimension : Nat) : VectorStore α :=
  { dimension := dimension
    index := { d := dimension, vectors := [] }
    metadata := [] }

/-- VectorStore.add_items: raises ValueError when the number of embeddings
differs from the number of metadata items, otherwise adds the vectors to
the index and extends the metadata list. -/
def VectorStore.add_items (s : VectorStore α) (embeddings : List Vec)
    (metadata_list : List α) : Except Err (VectorStore α) :=
  if embeddings.length ≠ metadata_list.length then
    .error .shapeMismatch
  else
    match s.index.addVecs embeddings with
    | .error e => .error e
    | .ok idx => .ok { s with index := idx, metadata := s.metadata ++ metadata_list }

/-- A query embedding, either a 1-dimensional vector or a matrix of rows,
mirroring the ndim distinction VectorStore.search makes on its numpy
argument. -/
inductive Query
  | vec (q : Vec)
  | mat (rows : List Vec)

/-- The reshape at the top of VectorStore.search: a 1-dimensional query is
turned into a single-row matrix; a matrix is passed through. -/
def Query.reshape : Query → List Vec
  | .vec q => [q]
  | .mat rows => rows

/-- The result-collection loop of VectorStore.search: walk one (id,
distance) row, keep each id that is not -1 and is below the metadata
length, and pair the metadata entry at that id with its reported
distance. -/
def VectorStore.collectRow (s : VectorStore α) (row : List (Int × ℚ)) :
    List (α × ℚ) :=
  row.filterMap (fun p =>
    if p.1 ≠ -1 ∧ p.1 < (s.metadata.length : Int) then
      match s.metadata[p.1.toNat]? with
      | some m => some (m, p.2)
      | none => none
    else none)

/-- VectorStore.search: reshapes the query, runs the FAISS search, then
collects the metadata for the id row of the first query. -/
def VectorStore.search (s : VectorStore α) (query_embedding : Query)
    (k : Int) : Except Err (List (α × ℚ)) :=
  match s.index.searchMat query_embedding.reshape k with
  | .error e => .error e
  | .ok results => .ok (s.collectRow (results.headD []))

/-- Model of the directory VectorStore.save writes: the three co-located
artifacts index.faiss, metadata.pkl and config.pkl, each possibly missing
or unreadable. -/
structure SavedDir (α : Type) where
  indexFile : Option FaissIndexFlatL2
  metadataFile : Option (List α)
  configFile : Option Nat
deriving DecidableEq

/-- VectorStore.save: writes the FAISS index, the metadata list, and a
config record holding the dimension. -/
def VectorStore.save (s : VectorStore α) : SavedDir α :=
  { indexFile := some s.index
    metadataFile := some s.metadata
    configFile := some s.dimension }

/-- VectorStore.load: reads config.pkl, creates a fresh instance with the
persisted dimension, then overwrites its index from index.faiss and its
metadata from metadata.pkl.  A missing or unreadable artifact raises; no
consistency check between the three artifacts is performed. -/
def VectorStore.load (dir : SavedDir α) : Except Err (VectorStore α) :=
  match dir.configFile with
  | none => .error .fileNotFound
  | some dim =>
    let vector_store : VectorStore α := VectorStore.create dim
    match dir.indexFile with
    | none => .error .fileNotFound
    | some idx =>
      match dir.metadataFile with
      | none => .error .fileNotFound
      | some metas => .ok { vector_store with index := idx, metadata := metas }

/-- One entry of the function catalog in
src/function_registry/functions.py: name, description, keyword list,
category and an optional parameter list. -/
structure FuncMeta where
  name : String
  description : String
  keywords : List String
  category : String
  parameters : List String := []
deriving DecidableEq

/-- The function_metadata catalog of src/function_registry/functions.py. -/
def function_metadata : List FuncMeta :=
  [ { name := "open_chrome"
      description := "Opens Google Chrome web browser"
      keywords := ["chrome", "browser", "web", "google", "internet", "open", "launch", "start"]
      category := "application_control" }
  , { name := "open_calculator"
      description := "Opens the system calculator application"
      keywords := ["calculator", "calc", "math", "open", "launch", "start"]
      category := "application_control" }
  , { name := "open_notepad"
      description := "Opens the system text editor or notepad"
      keywords := ["notepad", "text editor", "editor", "text", "notes", "open", "launch", "start"]
      category := "application_control" }
  , { name := "open_file_explorer"
      description := "Opens the system file explorer or file manager"
      keywords := ["file explorer", "explorer", "file manager", "files", "browse", "open", "launch", "start"]
      category := "application_control" }
  , { name := "get_cpu_usage"
      description := "Returns the current CPU usage percentage"
      keywords := ["cpu", "processor", "usage", "load", "performance", "monitoring", "system", "stats"]
      category := "system_monitoring" }
  , { name := "get_memory_usage"
      description := "Returns information about RAM usage"
      keywords := ["memory", "ram", "usage", "monitoring", "system", "performance", "stats"]
      category := "system_monitoring" }
  , { name := "get_disk_usage"
      description := "Returns information about disk space usage"
      keywords := ["disk", "storage", "drive", "space", "usage", "monitoring", "system", "stats"]
      category := "system_monitoring" }
  , { name := "get_battery_status"
      description := "Returns battery status information if available"
      keywords := ["battery", "power", "status", "charge", "monitoring", "system", "laptop"]
      category := "system_monitoring" }
  , { name := "run_shell_command"
      description := "Executes a shell command and returns the output"
      keywords := ["shell", "command", "cmd", "terminal", "console", "execute", "run"]
      category := "command_execution"
      parameters := ["command"] }
  , { name := "list_files_in_directory"
      description := "Lists all files in a specified directory"
      keywords := ["list", "files", "directory", "folder", "contents", "ls", "dir"]
      category := "command_execution"
      parameters := ["directory"] }
  , { name := "get_system_info"
      description := "Returns basic system information"
      keywords := ["system", "info", "information", "details", "specs", "specifications", "os", "platform"]
      category := "system_monitoring" }
  , { name := "create_file"
      description := "Creates a new file with optional content"
      keywords := ["create", "file", "new", "make", "write"]
      category := "command_execution"
      parameters := ["filename", "content"] }
  , { name := "read_file"
      description := "Reads the contents of a file"
      keywords := ["read", "file", "content", "open", "view"]
      category := "command_execution"
      parameters := ["filename"] } ]

/-- The rich description text EmbeddingGenerator.initialize_vector_store
synthesizes for one catalog entry: name, description, and the
comma-joined keywords. -/
def synthesizedDescription (f : FuncMeta) : String :=
  f.name ++ ": " ++ f.description ++ ". Keywords: " ++
    String.intercalate ", " f.keywords

/-- Model of the EmbeddingGenerator class of src/rag/embeddings.py: the
encode function stands for the loaded sentence-transformers model (the
source only needs it to be a deterministic text-to-vector map), and
vector_store is the lazily initialized store, None at construction. -/
structure EmbeddingGenerator where
  encode : String → Vec
  vector_store : Option (VectorStore FuncMeta)

/-- The build branch of EmbeddingGenerator.initialize_vector_store, taken
when no persisted index exists: synthesize a description per catalog
entry, encode all of them, create a store of the resulting embedding
width, add all (embedding, metadata) pairs, and save. -/
def EmbeddingGenerator.initFresh (g : EmbeddingGenerator) :
    Except Err (EmbeddingGenerator × SavedDir FuncMeta) :=
  let texts := function_metadata.map synthesizedDescription
  let embeddings := texts.map g.encode
  let vs0 : VectorStore FuncMeta := VectorStore.create (embeddings.headD []).length
  match vs0.add_items embeddings function_metadata with
  | .error e => .error e
  | .ok vs => .ok ({ g with vector_store := some vs }, vs.save)

/-- Model of EmbeddingGenerator.initialize_vector_store: when the save
directory exists and contains index.faiss, load the persisted store;
otherwise build from the catalog and save.  The filesystem argument is
the state of the save directory (None when the directory is absent). -/
def EmbeddingGenerator.initialize_vector_store (g : EmbeddingGenerator)
    (fs : Option (SavedDir FuncMeta)) :
    Except Err (EmbeddingGenerator × SavedDir FuncMeta) :=
  match fs with
  | some dir =>
    if dir.indexFile.isSome then
      match VectorStore.load dir with
      | .error e => .error e
      | .ok vs => .ok ({ g with vector_store := some vs }, dir)
    else g.initFresh
  | none => g.initFresh

/-- The guard at the top of EmbeddingGenerator.find_matching_function:
when vector_store is None, run initialize_vector_store; otherwise leave
the generator and the filesystem untouched. -/
def EmbeddingGenerator.ensureStore (g : EmbeddingGenerator)
    (fs : Option (SavedDir FuncMeta)) :
    Except Err (EmbeddingGenerator × Option (SavedDir FuncMeta)) :=
  match g.vector_store with
  | none =>
    match g.initialize_vector_store fs with
    | .error e => .error e
    | .ok (g1, dir) => .ok (g1, some dir)
  | some _ => .ok (g, fs)

/-- Model of EmbeddingGenerator.find_matching_function: initialize the
store when it is still None, encode the query (a single string, hence a
1-dimensional embedding), search, and drop the distances.  Returns the
matches together with the generator and filesystem states after the
call. -/
def EmbeddingGenerator.find_matching_function (g : EmbeddingGenerator)
    (fs : Option (SavedDir FuncMeta)) (query : String) (k : Int) :
    Except Err (List FuncMeta × EmbeddingGenerator × Option (SavedDir FuncMeta)) :=
  match g.ensureStore fs with
  | .error e => .error e
  | .ok (g1, fs1) =>
    let query_embedding := g1.encode query
    match g1.vector_store with
    | none => .error .attributeError
    | some vs =>
      match vs.search (Query.vec query_embedding) k with
      | .error e => .error e
      | .ok found => .ok (found.map Prod.fst, g1, fs1)

/-- The invariant of the VectorStore data model: the number of stored
vectors equals the number of metadata entries. -/
def VectorStore.sizeInvariant (s : VectorStore α) : Prop :=
  s.index.vectors.length = s.metadata.length

/-- A persisted directory whose three artifacts are all present but
mutually inconsistent: the index holds one vector while the metadata list
is empty. -/
def inconsistentDir : SavedDir ℕ :=
  { indexFile := some { d := 1, vectors := [[0]] }
    metadataFile := some []
    configFile := some 1 }

/-- A consistent two-entry store of dimension 1. -/
def twoEntryStore : VectorStore ℕ :=
  { dimension := 1
    index := { d := 1, vectors := [[0], [1]] }
    metadata := [10, 20] }

/-- An inconsistent store such as load can produce: three vectors in the
index but a single metadata entry. -/
def overfullStore : VectorStore ℕ :=
  { dimension := 1
    index := { d := 1, vectors := [[0], [2], [5]] }
    metadata := [10] }

/-- The embeddings of all synthesized catalog descriptions. -/
def catalogEmbeddings (g : EmbeddingGenerator) : List Vec :=
  (function_metadata.map synthesizedDescription).map g.encode

/-- The store initialize_vector_store builds when no persisted index
exists: every catalog entry encoded from its synthesized description, the
dimension taken from the width of the first embedding. -/
def populatedStore (g : EmbeddingGenerator) : VectorStore FuncMeta :=
  { dimension := ((catalogEmbeddings g).headD []).length
    index := { d := ((catalogEmbeddings g).headD []).length
               vectors := catalogEmbeddings g }
    metadata := function_metadata }

/-- The sorted (distance, id) pairs underlying one FAISS search row. -/
def sortedPairs (idx : FaissIndexFlatL2) (q : Vec) : List (ℚ × Nat) :=
  List.insertionSort distOrder
    ((List.range idx.vectors.length).map
      (fun i => (sqDist q (idx.vectors.getD i []), i)))

/-- The handle order of the FAISS result list: strictly smaller distance,
or equal distance and smaller insertion handle. -/
def rankedBefore (idx : FaissIndexFlatL2) (q : Vec) (i j : Nat) : Prop :=
  sqDist q (idx.vectors.getD i []) < sqDist q (idx.vectors.getD j []) ∨
    (sqDist q (idx.vectors.getD i []) = sqDist q (idx.vectors.getD j []) ∧ i < j)

/-! ### Helper lemmas -/

lemma filterMap_eq_map_of_mem {β γ : Type*} {f : β → Option γ} {g : β → γ} :
    ∀ {l : List β}, (∀ x ∈ l, f x = some (g x)) → l.filterMap f = l.map g := by
  intro l
  induction l with
  | nil => intro _; rfl
  | cons a t ih =>
    intro h
    rw [List.filterMap_cons, List.map_cons, h a (by simp),
      ih (fun x hx => h x (by simp [hx]))]

lemma add_items_ok (s : VectorStore α) (embs : List Vec) (metas : List α)
    (h : embs.length = metas.length)
    (hdim : ∀ v ∈ embs, v.length = s.index.d) :
    s.add_items embs metas = .ok
      { s with
        index := { s.index with vectors := s.index.vectors ++ embs }
        metadata := s.metadata ++ metas } := by
  have hall : embs.all (fun v => v.length == s.index.d) = true :=
    List.all_eq_true.mpr (fun v hv => beq_iff_eq.mpr (hdim v hv))
  rw [VectorStore.add_items, if_neg (not_not_intro h),
    FaissIndexFlatL2.addVecs, if_pos hall]

lemma collectRow_append (s : VectorStore α) (r1 r2 : List (Int × ℚ)) :
    s.collectRow (r1 ++ r2) = s.collectRow r1 ++ s.collectRow r2 := by
  simp [VectorStore.collectRow, List.filterMap_append]

lemma collectRow_pad (s : VectorStore α) (m : Nat) :
    s.collectRow (List.replicate m (-1, fltMax)) = [] := by
  rw [VectorStore.collectRow, List.filterMap_eq_nil_iff]
  intro p hp
  rw [List.eq_of_mem_replicate hp]
  simp

lemma collectRow_length_le (s : VectorStore α) (row : List (Int × ℚ)) :
    (s.collectRow row).length ≤ row.length :=
  List.length_filterMap_le _ _

lemma collectRow_mem {s : VectorStore α} {row : List (Int × ℚ)} {x : α × ℚ}
    (hx : x ∈ s.collectRow row) : x.1 ∈ s.metadata := by
  rw [VectorStore.collectRow, List.mem_filterMap] at hx
  obtain ⟨p, -, hp⟩ := hx
  by_cases hcond : p.1 ≠ -1 ∧ p.1 < (s.metadata.length : Int)
  · rw [if_pos hcond] at hp
    cases hmem : s.metadata[p.1.toNat]? with
    | none => rw [hmem] at hp; cases hp
    | some m =>
      rw [hmem] at hp
      cases hp
      exact List.getElem?_mem hmem
  · rw [if_neg hcond] at hp
    cases hp

lemma search_ok (s : VectorStore α) (qe : Query) (k : Int) (hk : 0 < k) :
    s.search qe k =
      .ok (s.collectRow
        ((qe.reshape.map (fun q => s.index.searchRow q k.toNat)).headD [])) := by
  rw [VectorStore.search, FaissIndexFlatL2.searchMat, if_neg (by omega)]

lemma searchRow_eq (idx : FaissIndexFlatL2) (q : Vec) (k : Nat) :
    idx.searchRow q k =
      ((sortedPairs idx q).take k).map (fun p => ((p.2 : Int), p.1)) ++
        List.replicate (k - (((sortedPairs idx q).take k).map
          (fun p => ((p.2 : Int), p.1))).length) (-1, fltMax) := by
  rw [FaissIndexFlatL2.searchRow, sortedPairs]

lemma sortedPairs_length (idx : FaissIndexFlatL2) (q : Vec) :
    (sortedPairs idx q).length = idx.vectors.length := by
  rw [sortedPairs, List.length_insertionSort, List.length_map, List.length_range]

lemma sortedPairs_perm (idx : FaissIndexFlatL2) (q : Vec) :
    (sortedPairs idx q).Perm
      ((List.range idx.vectors.length).map
        (fun i => (sqDist q (idx.vectors.getD i []), i))) :=
  List.perm_insertionSort _ _

lemma sortedPairs_mem {idx : FaissIndexFlatL2} {q : Vec} {p : ℚ × Nat}
    (hp : p ∈ sortedPairs idx q) :
    p.1 = sqDist q (idx.vectors.getD p.2 []) ∧ p.2 < idx.vectors.length := by
  have hmem := (sortedPairs_perm idx q).mem_iff.mp hp
  rw [List.mem_map] at hmem
  obtain ⟨i, hi, hip⟩ := hmem
  rw [List.mem_range] at hi
  cases hip
  exact ⟨rfl, hi⟩

lemma sortedPairs_sorted (idx : FaissIndexFlatL2) (q : Vec) :
    (sortedPairs idx q).Pairwise distOrder :=
  List.sorted_insertionSort _ _

lemma sortedPairs_snd_perm (idx : FaissIndexFlatL2) (q : Vec) :
    ((sortedPairs idx q).map Prod.snd).Perm (List.range idx.vectors.length) := by
  have h := (sortedPairs_perm idx q).map Prod.snd
  rw [List.map_map] at h
  simpa [Function.comp_def] using h

/-- The central characterization: on a store whose metadata is at least
as long as its vector list, searching a 1-dimensional query with positive
k lists, in FAISS order, the metadata and distance of the first
min(k, size) handles of the sorted pair list. -/
lemma search_vec_collect [Inhabited α] (s : VectorStore α) (q : Vec) (k : Int)
    (hcons : s.index.vectors.length ≤ s.metadata.length) (hk : 0 < k) :
    s.search (Query.vec q) k =
      .ok (((sortedPairs s.index q).take k.toNat).map
        (fun p => (s.metadata.getD p.2 default, p.1))) := by
  rw [search_ok s _ k hk]
  simp only [Query.reshape, List.map_cons, List.map_nil, List.headD_cons]
  rw [searchRow_eq, collectRow_append, collectRow_pad, List.append_nil]
  congr 1
  rw [VectorStore.collectRow, List.filterMap_map]
  apply filterMap_eq_map_of_mem
  intro p hp
  have hmem := sortedPairs_mem (List.mem_of_mem_take hp)
  have hlt : p.2 < s.metadata.length := lt_of_lt_of_le hmem.2 hcons
  have hcond : ((p.2 : Int) ≠ -1 ∧ (p.2 : Int) < (s.metadata.length : Int)) :=
    ⟨by omega, by exact_mod_cast hlt⟩
  simp only [Function.comp_apply, if_pos hcond, Int.toNat_natCast,
    List.getElem?_eq_getElem hlt, List.getD_eq_getElem s.metadata default hlt]

/-- Search with k at least the store size on a consistent store: the
result enumerates every handle exactly once, ordered by rankedBefore. -/
lemma search_vec_all [Inhabited α] (s : VectorStore α) (q : Vec) (k : Int)
    (hcons : s.index.vectors.length ≤ s.metadata.length) (hk0 : 0 < k)
    (hk : (s.index.vectors.length : Int) ≤ k) :
    ∃ hs : List Nat,
      hs.Perm (List.range s.index.vectors.length) ∧
      hs.Pairwise (rankedBefore s.index q) ∧
      s.search (Query.vec q) k = .ok (hs.map (fun i =>
        (s.metadata.getD i default, sqDist q (s.index.vectors.getD i [])))) := by
  have hlen : (sortedPairs s.index q).length ≤ k.toNat := by
    rw [sortedPairs_length]; omega
  have htake : (sortedPairs s.index q).take k.toNat = sortedPairs s.index q :=
    List.take_of_length_le hlen
  refine ⟨(sortedPairs s.index q).map Prod.snd, sortedPairs_snd_perm s.index q, ?_, ?_⟩
  · have hnd : ((sortedPairs s.index q).map Prod.snd).Nodup :=
      (List.nodup_range _).perm (sortedPairs_snd_perm s.index q).symm
    have hne : (sortedPairs s.index q).Pairwise (fun p p' => p.2 ≠ p'.2) :=
      List.pairwise_map.mp hnd
    have hord := (sortedPairs_sorted s.index q).and hne
    rw [List.pairwise_map]
    refine hord.imp_of_mem ?_
    intro p p' hp hp' hpp
    obtain ⟨hd, hne2⟩ := hpp
    have hd2 : p.1 < p'.1 ∨ (p.1 = p'.1 ∧ p.2 ≤ p'.2) := hd
    rcases hd2 with hdist | ⟨hdist, hle⟩
    · exact Or.inl (by
        rw [← (sortedPairs_mem hp).1, ← (sortedPairs_mem hp').1]; exact hdist)
    · refine Or.inr ⟨?_, lt_of_le_of_ne hle hne2⟩
      rw [← (sortedPairs_mem hp).1, ← (sortedPairs_mem hp').1]; exact hdist
  · rw [search_vec_collect s q k hcons hk0, htake, List.map_map]
    congr 1
    apply List.map_congr_left
    intro p hp
    simp only [Function.comp_apply]
    rw [(sortedPairs_mem hp).1]

lemma initFresh_eq (g : EmbeddingGenerator) (L : Nat)
    (hL : ∀ t, (g.encode t).length = L) :
    g.initFresh =
      .ok ({ g with vector_store := some (populatedStore g) },
        (populatedStore g).save) := by
  have hlen : ((function_metadata.map synthesizedDescription).map
      g.encode).length = function_metadata.length := by
    rw [List.length_map, List.length_map]
  have hdim : ∀ v ∈ (function_metadata.map synthesizedDescription).map
      g.encode,
      v.length = (VectorStore.create ((((function_metadata.map
        synthesizedDescription).map g.encode).headD []).length) :
        VectorStore FuncMeta).index.d := by
    intro v hv
    rw [List.mem_map] at hv
    obtain ⟨t, -, rfl⟩ := hv
    exact (hL t).trans (hL _).symm
  simp only [EmbeddingGenerator.initFresh]
  rw [add_items_ok _ _ _ hlen hdim]
  rfl

/-! ### Claim theorems -/

/-- Claim C10: search accepts the query in either shape; a 1-dimensional
query q gives exactly the same result as the 1-by-D row matrix holding q,
because the 1-dimensional case is reshaped to a single-row matrix before
the index is consulted. -/
theorem search_vec_eq_mat (s : VectorStore α) (q : Vec) (k : Int) :
    s.search (Query.vec q) k = s.search (Query.mat [q]) k := rfl

/-- Claim C5: for every index (empty or populated) and every k at most 0,
search fails with the invalid-argument error, rejected before any
distance computation (the error does not depend on the stored vectors or
the query). -/
theorem search_rejects_nonpositive_k (s : VectorStore α) (qe : Query)
    (k : Int) (hk : k ≤ 0) : s.search qe k = .error .invalidK := by
  rw [VectorStore.search, FaissIndexFlatL2.searchMat, if_pos hk]

/-- Witness for claim C5 at a concrete store and k = 0. -/
theorem search_rejects_nonpositive_k_witness :
    (VectorStore.create 3 : VectorStore ℕ).search (Query.vec [0, 0, 0]) 0 =
      .error .invalidK :=
  search_rejects_nonpositive_k _ _ 0 (by decide)

/-- Claim C2: saving an index and loading it back yields an index with
the same dimension, the same metadata in the same order, the same stored
vectors, and identical search results for every query and every k (the
model is exact, so identity holds with no tolerance needed). -/
theorem save_load_roundtrip (s : VectorStore α) :
    ∃ s₂, VectorStore.load s.save = .ok s₂ ∧
      s₂.dimension = s.dimension ∧ s₂.metadata = s.metadata ∧
      s₂.index = s.index ∧
      ∀ (qe : Query) (k : Int), s₂.search qe k = s.search qe k :=
  ⟨s, rfl, rfl, rfl, rfl, fun _ _ => rfl⟩

/-- Claim C3 (counterexample): load succeeds on a directory whose three
artifacts are all present but whose metadata length disagrees with the
number of vectors in the index, while the claim requires load to fail on
such state. -/
theorem load_accepts_inconsistent_state :
    VectorStore.load inconsistentDir =
      .ok { dimension := 1, index := { d := 1, vectors := [[0]] }, metadata := [] } ∧
    ({ dimension := 1, index := { d := 1, vectors := [[0]] },
       metadata := [] } : VectorStore ℕ).index.vectors.length ≠
      ({ dimension := 1, index := { d := 1, vectors := [[0]] },
         metadata := [] } : VectorStore ℕ).metadata.length :=
  ⟨rfl, by decide⟩

/-- Claim C3 (amended): load fails, with a plain missing-file error rather
than a dedicated corrupt-state error, exactly when one of the three
artifacts is missing or unreadable; it performs no consistency validation,
so it succeeds whenever all three artifacts are readable, even when the
metadata length or the config dimension disagree with the index. -/
theorem load_ok_iff_artifacts_present (dir : SavedDir α) :
    ((∃ s, VectorStore.load dir = .ok s) ↔
      dir.configFile.isSome ∧ dir.indexFile.isSome ∧ dir.metadataFile.isSome) ∧
    ((dir.configFile = none ∨ dir.indexFile = none ∨ dir.metadataFile = none) →
      VectorStore.load dir = .error .fileNotFound) := by
  obtain ⟨io, mo, co⟩ := dir
  cases co <;> cases io <;> cases mo <;> simp [VectorStore.load]

/-- Witness for claim C3 (amended) at a concrete directory with all three
artifacts missing. -/
theorem load_ok_iff_artifacts_present_witness :
    VectorStore.load
      ({ indexFile := none, metadataFile := none, configFile := none } :
        SavedDir ℕ) = .error .fileNotFound :=
  (load_ok_iff_artifacts_present _).2 (Or.inl rfl)

/-- Claim C4: add with mismatched lengths fails with the shape-mismatch
error and produces no store (all-or-nothing: in this functional model an
error outcome carries no partially extended state); with equal lengths
and well-dimensioned embeddings it succeeds and appends both sequences in
lockstep order. -/
theorem add_items_all_or_nothing :
    (∀ (s : VectorStore α) (embs : List Vec) (metas : List α),
       embs.length ≠ metas.length →
       s.add_items embs metas = .error .shapeMismatch) ∧
    (∀ (s : VectorStore α) (embs : List Vec) (metas : List α),
       embs.length = metas.length →
       (∀ v ∈ embs, v.length = s.index.d) →
       ∃ s₂, s.add_items embs metas = .ok s₂ ∧
         s₂.index.vectors = s.index.vectors ++ embs ∧
         s₂.metadata = s.metadata ++ metas) := by
  constructor
  · intro s embs metas h
    rw [VectorStore.add_items, if_pos h]
  · intro s embs metas h hdim
    rw [add_items_ok s embs metas h hdim]
    exact ⟨_, rfl, rfl, rfl⟩

/-- Witness for claim C4: a length-mismatched add fails, a matched add
appends. -/
theorem add_items_all_or_nothing_witness :
    ((VectorStore.create 1 : VectorStore ℕ).add_items [[0]] [] =
      .error .shapeMismatch) ∧
    (∃ s₂, (VectorStore.create 1 : VectorStore ℕ).add_items [[0]] [7] =
        .ok s₂ ∧
      s₂.index.vectors =
        (VectorStore.create 1 : VectorStore ℕ).index.vectors ++ [[0]] ∧
      s₂.metadata = (VectorStore.create 1 : VectorStore ℕ).metadata ++ [7]) :=
  ⟨(@add_items_all_or_nothing ℕ).1 _ [[0]] [] (by decide),
   (@add_items_all_or_nothing ℕ).2 _ [[0]] [7] (by decide) (by decide)⟩

/-- Claim C7: create establishes the size invariant (vector count equals
metadata count); a successful add preserves it while appending both
sequences (append-only: the previous entries survive unchanged as a
prefix); save then load preserves it together with the full content.
Search and save take the store as a read-only value in this model and
return no modified store. -/
theorem operations_preserve_size_invariant :
    (∀ d : Nat, (VectorStore.create d : VectorStore α).sizeInvariant) ∧
    (∀ (s : VectorStore α) (embs : List Vec) (metas : List α)
       (s₂ : VectorStore α),
       s.sizeInvariant → s.add_items embs metas = .ok s₂ →
       s₂.sizeInvariant ∧ s₂.index.vectors = s.index.vectors ++ embs ∧
         s₂.metadata = s.metadata ++ metas) ∧
    (∀ s : VectorStore α, s.sizeInvariant →
       ∃ s₂, VectorStore.load s.save = .ok s₂ ∧ s₂.sizeInvariant ∧
         s₂.index = s.index ∧ s₂.metadata = s.metadata) := by
  refine ⟨fun d => rfl, ?_, fun s h => ⟨s, rfl, h, rfl, rfl⟩⟩
  intro s embs metas s₂ hinv hadd
  rw [VectorStore.add_items] at hadd
  by_cases hlen : embs.length ≠ metas.length
  · rw [if_pos hlen] at hadd; cases hadd
  · rw [if_neg hlen, FaissIndexFlatL2.addVecs] at hadd
    by_cases hall : embs.all (fun v => v.length == s.index.d) = true
    · rw [if_pos hall] at hadd
      cases hadd
      refine ⟨?_, rfl, rfl⟩
      rw [not_ne_iff] at hlen
      unfold VectorStore.sizeInvariant at hinv ⊢
      simp only [List.length_append]
      omega
    · rw [if_neg hall] at hadd
      cases hadd

/-- Witness for claim C7: the invariant holds after a concrete add and
after a save-load round trip. -/
theorem operations_preserve_size_invariant_witness :
    ((VectorStore.create 1 : VectorStore ℕ).add_items [[0]] [7] =
      .ok ⟨1, ⟨1, [[0]]⟩, [7]⟩) ∧
    ((⟨1, ⟨1, [[0]]⟩, [7]⟩ : VectorStore ℕ).sizeInvariant ∧
      (⟨1, ⟨1, [[0]]⟩, [7]⟩ : VectorStore ℕ).index.vectors =
        (VectorStore.create 1 : VectorStore ℕ).index.vectors ++ [[0]] ∧
      (⟨1, ⟨1, [[0]]⟩, [7]⟩ : VectorStore ℕ).metadata =
        (VectorStore.create 1 : VectorStore ℕ).metadata ++ [7]) ∧
    (∃ s₂, VectorStore.load (⟨1, ⟨1, [[0]]⟩, [7]⟩ : VectorStore ℕ).save =
        .ok s₂ ∧ s₂.sizeInvariant ∧
      s₂.index = (⟨1, ⟨1, [[0]]⟩, [7]⟩ : VectorStore ℕ).index ∧
      s₂.metadata = (⟨1, ⟨1, [[0]]⟩, [7]⟩ : VectorStore ℕ).metadata) :=
  ⟨rfl,
   (@operations_preserve_size_invariant ℕ).2.1 _ [[0]] [7] _ rfl rfl,
   (@operations_preserve_size_invariant ℕ).2.2 _ rfl⟩

/-- Claim C1: after populating a fresh index with one successful add,
searching any query with positive k at least the number of stored entries
returns every stored entry exactly once (the handle list is a permutation
of all handles), ordered by non-decreasing squared L2 distance to the
query, ties broken by insertion order (lower handle first). -/
theorem add_then_search_returns_all_sorted [Inhabited α]
    (d : Nat) (embs : List Vec) (metas : List α) (s : VectorStore α)
    (hadd : (VectorStore.create d : VectorStore α).add_items embs metas = .ok s)
    (q : Vec) (k : Int) (hk0 : 0 < k) (hk : (embs.length : Int) ≤ k) :
    ∃ hs : List Nat,
      hs.Perm (List.range embs.length) ∧
      hs.Pairwise (fun i j =>
        sqDist q (embs.getD i []) < sqDist q (embs.getD j []) ∨
        (sqDist q (embs.getD i []) = sqDist q (embs.getD j []) ∧ i < j)) ∧
      s.search (Query.vec q) k = .ok (hs.map (fun i =>
        (metas.getD i default, sqDist q (embs.getD i [])))) := by
  rw [VectorStore.add_items] at hadd
  by_cases hlen : embs.length ≠ metas.length
  · rw [if_pos hlen] at hadd; cases hadd
  · rw [if_neg hlen, FaissIndexFlatL2.addVecs] at hadd
    rw [not_ne_iff] at hlen
    by_cases hall : embs.all (fun v =>
        v.length == (VectorStore.create d : VectorStore α).index.d) = true
    · rw [if_pos hall] at hadd
      cases hadd
      obtain ⟨hs, hperm, hpair, hsearch⟩ :=
        search_vec_all (⟨d, ⟨d, embs⟩, metas⟩ : VectorStore α) q k
          (le_of_eq hlen) hk0 hk
      exact ⟨hs, hperm, hpair, hsearch⟩
    · rw [if_neg hall] at hadd; cases hadd

/-- Witness for claim C1 on a one-entry index with k = 1. -/
theorem add_then_search_returns_all_sorted_witness :
    ((VectorStore.create 1 : VectorStore ℕ).add_items [[0]] [5] =
      .ok ⟨1, ⟨1, [[0]]⟩, [5]⟩) ∧
    (∃ hs : List Nat,
      hs.Perm (List.range 1) ∧
      hs.Pairwise (fun i j =>
        sqDist [3] ([[0]].getD i []) < sqDist [3] ([[0]].getD j []) ∨
        (sqDist [3] ([[0]].getD i []) = sqDist [3] ([[0]].getD j []) ∧ i < j)) ∧
      (⟨1, ⟨1, [[0]]⟩, [5]⟩ : VectorStore ℕ).search (Query.vec [3]) 1 =
        .ok (hs.map (fun i =>
          (([5] : List ℕ).getD i default, sqDist [3] ([[0]].getD i []))))) :=
  ⟨rfl, add_then_search_returns_all_sorted 1 [[0]] [5] _ rfl [3] 1
    (by decide) (by decide)⟩

/-- Claim C6: with positive k, search succeeds and returns at most
min(k, size) results; on an empty index it returns the empty list rather
than an error; and k = 5 against the concrete two-entry store returns
exactly 2 results. -/
theorem search_result_length_bounds :
    (∀ (s : VectorStore α) (qe : Query) (k : Int), 0 < k →
       ∃ rs, s.search qe k = .ok rs ∧
         rs.length ≤ min k.toNat s.index.vectors.length) ∧
    (∀ (s : VectorStore α) (qe : Query) (k : Int), 0 < k →
       s.index.vectors = [] → s.search qe k = .ok []) ∧
    (∃ rs, twoEntryStore.search (Query.vec [0]) 5 = .ok rs ∧
      rs.length = 2) := by
  refine ⟨?_, ?_, ?_⟩
  · intro s qe k hk
    have key : ∀ qv : Vec,
        (s.collectRow (s.index.searchRow qv k.toNat)).length ≤
          min k.toNat s.index.vectors.length := by
      intro qv
      rw [searchRow_eq, collectRow_append, collectRow_pad, List.append_nil]
      calc (s.collectRow _).length
          ≤ (((sortedPairs s.index qv).take k.toNat).map
              (fun p => ((p.2 : Int), p.1))).length := collectRow_length_le _ _
        _ = min k.toNat s.index.vectors.length := by
            rw [List.length_map, List.length_take, sortedPairs_length]
    rw [search_ok s qe k hk]
    cases qe with
    | vec qv => exact ⟨_, rfl, key qv⟩
    | mat rows =>
      cases rows with
      | nil => exact ⟨[], rfl, by simp⟩
      | cons qv rest => exact ⟨_, rfl, key qv⟩
  · intro s qe k hk hempty
    have hrow : ∀ qv : Vec,
        s.collectRow (s.index.searchRow qv k.toNat) = [] := by
      intro qv
      have hsp : sortedPairs s.index qv = [] := by
        rw [sortedPairs, hempty]
        rfl
      rw [searchRow_eq, collectRow_append, collectRow_pad, List.append_nil,
        hsp, List.take_nil]
      rfl
    rw [search_ok s qe k hk]
    cases qe with
    | vec qv =>
      simp only [Query.reshape, List.map_cons, List.map_nil,
        List.headD_cons, hrow]
    | mat rows =>
      cases rows with
      | nil => rfl
      | cons qv rest =>
        simp only [Query.reshape, List.map_cons, List.headD_cons, hrow]
  · obtain ⟨hs, hperm, hpair, hsearch⟩ :=
      search_vec_all twoEntryStore [0] 5 (by decide) (by decide) (by decide)
    refine ⟨_, hsearch, ?_⟩
    rw [List.length_map, hperm.length_eq, List.length_range]
    rfl

/-- Witness for claim C6 at a concrete empty store with k = 2. -/
theorem search_result_length_bounds_witness :
    (∃ rs, (VectorStore.create 1 : VectorStore ℕ).search (Query.vec [0]) 2 =
        .ok rs ∧
      rs.length ≤ min (2 : Int).toNat
        (VectorStore.create 1 : VectorStore ℕ).index.vectors.length) ∧
    (VectorStore.create 1 : VectorStore ℕ).search (Query.vec [0]) 2 =
      .ok [] :=
  ⟨(@search_result_length_bounds ℕ).1 _ (Query.vec [0]) 2 (by decide),
   (@search_result_length_bounds ℕ).2.1 _ (Query.vec [0]) 2 (by decide) rfl⟩

/-- Claim C9: every returned search result holds a metadata value that is
an element of the metadata list (results only come from handles that are
not -1 and are below the metadata length, so no out-of-bounds lookup
occurs), and on a store holding more vectors than metadata entries search
succeeds, silently dropping the unmatched handles. -/
theorem search_within_metadata_bounds :
    (∀ (s : VectorStore α) (qe : Query) (k : Int) (rs : List (α × ℚ)),
       s.search qe k = .ok rs → ∀ r ∈ rs, r.1 ∈ s.metadata) ∧
    (∃ dq : ℚ, overfullStore.search (Query.vec [0]) 3 = .ok [(10, dq)]) := by
  constructor
  · intro s qe k rs h r hr
    rw [VectorStore.search] at h
    cases hmat : s.index.searchMat qe.reshape k with
    | error e => rw [hmat] at h; cases h
    | ok results =>
      rw [hmat] at h
      cases h
      exact collectRow_mem hr
  · refine ⟨sqDist [0] [0], ?_⟩
    rw [search_ok overfullStore (Query.vec [0]) 3 (by decide)]
    simp only [Query.reshape, List.map_cons, List.map_nil, List.headD_cons]
    rw [searchRow_eq, collectRow_append, collectRow_pad, List.append_nil]
    rw [List.take_of_length_le (by rw [sortedPairs_length]; decide)]
    have hperm :
        (overfullStore.collectRow ((sortedPairs overfullStore.index [0]).map
          (fun p => ((p.2 : Int), p.1)))).Perm
        (overfullStore.collectRow
          (([(sqDist [0] [0], 0), (sqDist [0] [2], 1),
             (sqDist [0] [5], 2)] : List (ℚ × Nat)).map
            (fun p => ((p.2 : Int), p.1)))) :=
      List.Perm.filterMap _ ((sortedPairs_perm overfullStore.index [0]).map _)
    have hconc : overfullStore.collectRow
        (([(sqDist [0] [0], 0), (sqDist [0] [2], 1),
           (sqDist [0] [5], 2)] : List (ℚ × Nat)).map
          (fun p => ((p.2 : Int), p.1))) = [(10, sqDist [0] [0])] := rfl
    rw [hconc] at hperm
    rw [List.perm_singleton.mp hperm]

/-- Witness for claim C9 on a consistent single-entry store, where the
search result is computable by reduction. -/
theorem search_within_metadata_bounds_witness :
    ((⟨1, ⟨1, [[5]]⟩, [42]⟩ : VectorStore ℕ).search (Query.vec [3]) 1 =
      .ok [(42, sqDist [3] [5])]) ∧
    (42, sqDist [3] [5]).1 ∈ (⟨1, ⟨1, [[5]]⟩, [42]⟩ : VectorStore ℕ).metadata :=
  ⟨rfl,
   (@search_within_metadata_bounds ℕ).1 _ (Query.vec [3]) 1 _ rfl
     (42, sqDist [3] [5]) (List.mem_singleton.mpr rfl)⟩

/-- Claim C8: with no persisted state and an unpopulated store, the first
find_matching_function call populates the index exactly once from the
full catalog, one entry per descriptor with its synthesized description
encoded; once the store is populated, every further
find_matching_function call leaves the generator and the filesystem
unchanged (no re-population, no duplicate entries). -/
theorem find_matching_function_populates_once :
    (∀ (g : EmbeddingGenerator) (L : Nat) (query : String) (k : Int),
       g.vector_store = none →
       (∀ t, (g.encode t).length = L) →
       0 < k →
       ∃ res, g.find_matching_function none query k =
           .ok (res, { g with vector_store := some (populatedStore g) },
             some (populatedStore g).save) ∧
         (populatedStore g).metadata = function_metadata ∧
         (populatedStore g).index.vectors =
           function_metadata.map (fun f => g.encode (synthesizedDescription f))) ∧
    (∀ (g : EmbeddingGenerator) (fs : Option (SavedDir FuncMeta))
       (vs : VectorStore FuncMeta) (query : String) (k : Int),
       g.vector_store = some vs → 0 < k →
       ∃ res, g.find_matching_function fs query k = .ok (res, g, fs)) := by
  constructor
  · intro g L query k hnone hL hk
    rw [EmbeddingGenerator.find_matching_function, EmbeddingGenerator.ensureStore,
      hnone, EmbeddingGenerator.initialize_vector_store,
      initFresh_eq g L hL]
    simp only []
    rw [search_ok _ _ _ hk]
    exact ⟨_, rfl, rfl, rfl⟩
  · intro g fs vs query k hsome hk
    rw [EmbeddingGenerator.find_matching_function, EmbeddingGenerator.ensureStore]
    simp only [hsome]
    simp only [search_ok _ _ _ hk]
    exact ⟨_, rfl⟩

/-- Witness for claim C8 with a constant-width encoder. -/
theorem find_matching_function_populates_once_witness :
    (∃ res, (⟨fun _ => [0], none⟩ : EmbeddingGenerator).find_matching_function
        none "open chrome" 1 =
        .ok (res, { (⟨fun _ => [0], none⟩ : EmbeddingGenerator) with
            vector_store := some (populatedStore ⟨fun _ => [0], none⟩) },
          some (populatedStore ⟨fun _ => [0], none⟩).save) ∧
      (populatedStore ⟨fun _ => [0], none⟩).metadata = function_metadata ∧
      (populatedStore ⟨fun _ => [0], none⟩).index.vectors =
        function_metadata.map (fun f =>
          (⟨fun _ => [0], none⟩ : EmbeddingGenerator).encode
            (synthesizedDescription f))) ∧
    (∃ res, (⟨fun _ => [0], some (VectorStore.create 1)⟩ :
        EmbeddingGenerator).find_matching_function none "open chrome" 1 =
        .ok (res, ⟨fun _ => [0], some (VectorStore.create 1)⟩, none)) :=
  ⟨find_matching_function_populates_once.1 _ 1 "open chrome" 1 rfl
    (fun _ => rfl) (by decide),
   find_matching_function_populates_once.2 _ none _ "open chrome" 1 rfl
    (by decide)⟩

end AutomationApi
